import Mathlib

/-!
Verification of the rn-storybook-doc-generator documentation pipeline.

This development embeds the documentation generator (`src/doc-generator.ts`,
`src/source-extractor.ts`, `src/config.ts`) shallowly in Lean.  Pure string
manipulation from the source is translated directly; the pieces of the
program that touch the file system or call the TypeScript structural parser
(`ts-parser.ts`, which is not part of the repository snapshot) are modelled
as explicit function-valued parameters of an environment record, so that
each definition stays executable and each theorem quantifies over all
possible behaviours of those collaborators.
-/

/-- Modelled from the spec: `types.ts` is not in the repository snapshot.
A property descriptor as produced by the structural parser, *before* the
inheritance resolver tags it: name, declared type expression, optionality
flag and optional default-value expression (spec section 3,
PropertyDescriptor). -/
structure RawProp where
  name : String
  type : String
  optional : Bool
  defaultValue : Option String
deriving Repr, DecidableEq

/-- Modelled from the spec: `types.ts` is not in the repository snapshot.
A fully tagged property descriptor (`PropInfo`): the raw fields plus the
`inherited` flag and, when inherited, the origin type name
(spec section 3, PropertyDescriptor). -/
structure PropInfo where
  name : String
  type : String
  optional : Bool
  defaultValue : Option String
  inherited : Bool
  inheritedFrom : Option String
deriving Repr, DecidableEq

/-- Modelled from the spec: a method parameter (name, type, optionality). -/
structure ParamInfo where
  name : String
  type : String
  optional : Bool
deriving Repr, DecidableEq

/-- Modelled from the spec: `MethodInfo` — name, ordered parameters and
return type expression (spec section 3, MethodDescriptor). -/
structure MethodInfo where
  name : String
  parameters : List ParamInfo
  returnType : String
deriving Repr, DecidableEq

/-- `EventInfo` — event name, type classification and rendered parameter
signature, as assembled in `doc-generator.ts`. -/
structure EventInfo where
  name : String
  type : String
  parameters : String
deriving Repr, DecidableEq

/-- `StyleInfo` — style class name and optional human description, as
assembled in `doc-generator.ts`. -/
structure StyleInfo where
  className : String
  description : Option String
deriving Repr, DecidableEq

/-- The result of `TypeScriptParser.extractProps`: the property-bag class
name, its field descriptors and its declared parent type name
(used as `propsInfo.className`, `propsInfo.props`, `propsInfo.baseClass`
in `doc-generator.ts`). -/
structure PropsInfo where
  className : String
  props : List RawProp
  baseClass : Option String
deriving Repr, DecidableEq

/-- The result of `TypeScriptParser.extractMethods`
(used as `methodsInfo.methods` in `doc-generator.ts`). -/
structure MethodsInfo where
  methods : List MethodInfo
deriving Repr, DecidableEq

/-- The result of `TypeScriptParser.extractStyleClasses`
(used as `styleInfo.defaultClass` / `styleInfo.styleClasses`). -/
structure StyleExtract where
  defaultClass : String
  styleClasses : List String
deriving Repr, DecidableEq

/-- Modelled from the spec: a call-site event extracted by
`TypeScriptParser.extractEventCallbacks` — the event name and the literal
parameter list at the emission call site (spec section 4.2). -/
structure RawEvent where
  name : String
  parameters : String
deriving Repr, DecidableEq

/-- A `ComponentDoc` as assembled by `generateComponentDoc`.  Because a
document may carry nested child documents, this is a nested inductive
type; field accessors are defined below. -/
inductive ComponentDoc where
  | mk : (componentName : String) → (componentPath : String) →
      (category : String) → (props : List PropInfo) →
      (methods : List MethodInfo) → (events : List EventInfo) →
      (styles : List StyleInfo) → (baseClass : Option String) →
      (children : Option (List ComponentDoc)) →
      (description : Option String) → ComponentDoc

def ComponentDoc.componentName : ComponentDoc → String
  | .mk n _ _ _ _ _ _ _ _ _ => n

def ComponentDoc.componentPath : ComponentDoc → String
  | .mk _ p _ _ _ _ _ _ _ _ => p

def ComponentDoc.category : ComponentDoc → String
  | .mk _ _ c _ _ _ _ _ _ _ => c

def ComponentDoc.props : ComponentDoc → List PropInfo
  | .mk _ _ _ ps _ _ _ _ _ _ => ps

def ComponentDoc.methods : ComponentDoc → List MethodInfo
  | .mk _ _ _ _ ms _ _ _ _ _ => ms

def ComponentDoc.events : ComponentDoc → List EventInfo
  | .mk _ _ _ _ _ es _ _ _ _ => es

def ComponentDoc.styles : ComponentDoc → List StyleInfo
  | .mk _ _ _ _ _ _ ss _ _ _ => ss

def ComponentDoc.baseClass : ComponentDoc → Option String
  | .mk _ _ _ _ _ _ _ b _ _ => b

def ComponentDoc.children : ComponentDoc → Option (List ComponentDoc)
  | .mk _ _ _ _ _ _ _ _ cs _ => cs

def ComponentDoc.description : ComponentDoc → Option String
  | .mk _ _ _ _ _ _ _ _ _ d => d

/-! ## Configuration (`src/config.ts`) -/

/-- A per-component override entry of
`config.documentation.componentOverrides`; each list is optional, matching
the `excludeProps?: string[]` optional fields. -/
structure ComponentOverride where
  excludeProps : Option (List String) := none
  excludeMethods : Option (List String) := none
  excludeStyleClasses : Option (List String) := none
deriving Repr, DecidableEq

/-- The `documentation` section of `GeneratorConfig`.  The
`componentOverrides` object is modelled as an association list keyed by
component name. -/
structure DocumentationConfig where
  excludeProps : List String
  excludeInheritedProps : List String
  excludeMethods : List String
  excludeStyleClasses : List String
  componentOverrides : List (String × ComponentOverride)
deriving Repr, DecidableEq

/-- The `llm` section of `GeneratorConfig`.  `batchSize` is an
`Option Int` because JavaScript `parseInt` can produce `NaN`. -/
structure LlmConfig where
  provider : String
  model : Option String
  storybookPath : String
  batchSize : Option Int
deriving Repr, DecidableEq

/-- `GeneratorConfig` from `src/config.ts`.  Objects used as string-keyed
maps (`childComponents`, `componentAliases`, `componentOverrides`) are
modelled as association lists in key-insertion order. -/
structure GeneratorConfig where
  includeComponents : List String
  childComponents : List (String × List (String × String))
  componentAliases : List (String × String)
  excludeCategories : List String
  excludeComponents : List String
  documentation : DocumentationConfig
  llm : LlmConfig
deriving Repr, DecidableEq

/-- `config.documentation.componentOverrides[componentName]`:
first binding for the key, if any. -/
def lookupOverride (cfg : DocumentationConfig) (componentName : String) :
    Option ComponentOverride :=
  (cfg.componentOverrides.find? (fun kv => kv.1 = componentName)).map (·.2)

/-! ## Filter/Policy Engine (`filterComponentDoc`, doc-generator.ts 188-234) -/

/-- The predicate of the `doc.props.filter(...)` callback in
`filterComponentDoc`: `true` iff the property is kept. -/
def propKept (cfg : DocumentationConfig) (componentName : String)
    (prop : PropInfo) : Bool :=
  if cfg.excludeProps.contains prop.name then false
  else if prop.inherited && cfg.excludeInheritedProps.contains prop.name then false
  else
    match lookupOverride cfg componentName with
    | some ov =>
      match ov.excludeProps with
      | some l => !(l.contains prop.name)
      | none => true
    | none => true

/-- The predicate of the `doc.methods.filter(...)` callback in
`filterComponentDoc`. -/
def methodKept (cfg : DocumentationConfig) (componentName : String)
    (method : MethodInfo) : Bool :=
  if cfg.excludeMethods.contains method.name then false
  else
    match lookupOverride cfg componentName with
    | some ov =>
      match ov.excludeMethods with
      | some l => !(l.contains method.name)
      | none => true
    | none => true

/-- The predicate of the `doc.styles.filter(...)` callback in
`filterComponentDoc`. -/
def styleKept (cfg : DocumentationConfig) (componentName : String)
    (style : StyleInfo) : Bool :=
  if cfg.excludeStyleClasses.contains style.className then false
  else
    match lookupOverride cfg componentName with
    | some ov =>
      match ov.excludeStyleClasses with
      | some l => !(l.contains style.className)
      | none => true
    | none => true

/-- `filterComponentDoc` (doc-generator.ts 188-234): filters `props`,
`methods` and `styles`, and spreads every other field of the document
unchanged (`{...doc, props, methods, styles}`). -/
def filterComponentDoc (cfg : DocumentationConfig) :
    ComponentDoc → ComponentDoc
  | .mk name pathv cat props methods events styles base children desc =>
    .mk name pathv cat
      (props.filter (propKept cfg name))
      (methods.filter (methodKept cfg name))
      events
      (styles.filter (styleKept cfg name))
      base children desc

/-! ## Theorems: C3 (idempotence) and C8 (frame) -/

theorem filter_self_idem {α : Type} (p : α → Bool) (l : List α) :
    (l.filter p).filter p = l.filter p := by
  induction l with
  | nil => rfl
  | cons a t ih =>
    by_cases h : p a = true
    · simp [List.filter, h, ih]
    · simp only [Bool.not_eq_true] at h
      simp [List.filter, h, ih]

/-- C3: `filterComponentDoc` is idempotent — filtering an already filtered
document changes nothing, for every configuration and every document. -/
theorem filterComponentDoc_idem (cfg : DocumentationConfig)
    (doc : ComponentDoc) :
    filterComponentDoc cfg (filterComponentDoc cfg doc) =
      filterComponentDoc cfg doc := by
  cases doc with
  | mk name pathv cat props methods events styles base children desc =>
    simp only [filterComponentDoc]
    rw [filter_self_idem, filter_self_idem, filter_self_idem]

/-- C8: `filterComponentDoc` only touches the `props`, `methods` and
`styles` lists; the `events` list, the `children` list, `componentName`,
`componentPath`, `category`, `baseClass` (and the free-text `description`)
of the result are identical to those of the input — in particular no event
is ever removed by the filter stage. -/
theorem filterComponentDoc_frame (cfg : DocumentationConfig)
    (doc : ComponentDoc) :
    (filterComponentDoc cfg doc).events = doc.events ∧
    (filterComponentDoc cfg doc).children = doc.children ∧
    (filterComponentDoc cfg doc).componentName = doc.componentName ∧
    (filterComponentDoc cfg doc).componentPath = doc.componentPath ∧
    (filterComponentDoc cfg doc).category = doc.category ∧
    (filterComponentDoc cfg doc).baseClass = doc.baseClass ∧
    (filterComponentDoc cfg doc).description = doc.description := by
  cases doc
  exact ⟨rfl, rfl, rfl, rfl, rfl, rfl, rfl⟩

/-! ## Source Locator (`src/source-extractor.ts`) -/

/-- The parsed shape of a `.js.map` artifact (`SourceMapContent` in the
missing `types.ts`): `sources` and `sourcesContent` are each optional,
matching the runtime checks `!sourceMap.sourcesContent` /
`!sourceMap.sources` in `source-extractor.ts`. -/
structure SourceMapContent where
  sources : Option (List String)
  sourcesContent : Option (List String)
deriving Repr, DecidableEq

/-- The file-system and JSON collaborators of `SourceExtractor`:
`readFile path = none` models `fs.readFileSync` throwing (unreadable
file), `parse text = none` models `JSON.parse` throwing (invalid
serialized data).  Both exceptions are caught by `readSourceMap`. -/
structure SourceMapEnv where
  readFile : String → Option String
  parse : String → Option SourceMapContent

/-- `SourceExtractor.readSourceMap` (source-extractor.ts 13-21): read the
artifact file and parse it; any failure is caught and yields `null`. -/
def readSourceMap (env : SourceMapEnv) (mapFilePath : String) :
    Option SourceMapContent :=
  match env.readFile mapFilePath with
  | none => none
  | some content => env.parse content

/-- `SourceExtractor.extractSourceContent` (source-extractor.ts 26-44):
returns the recovered source text at `sourceIndex`, or `null` when the
artifact is unreadable/unparsable, has no `sourcesContent`, has an empty
`sourcesContent`, or the index is out of range. -/
def extractSourceContent (env : SourceMapEnv) (mapFilePath : String)
    (sourceIndex : Nat) : Option String :=
  match readSourceMap env mapFilePath with
  | none => none
  | some sourceMap =>
    match sourceMap.sourcesContent with
    | none => none
    | some sc =>
      if sc.length = 0 then none
      else if sourceIndex ≥ sc.length then none
      else sc.get? sourceIndex

/-- The failure condition of C7, as a predicate on the environment, path
and index: artifact unreadable or unparsable, content list absent or
empty, or index out of range. -/
def extractFails (env : SourceMapEnv) (mapFilePath : String)
    (sourceIndex : Nat) : Prop :=
  readSourceMap env mapFilePath = none ∨
  (readSourceMap env mapFilePath).bind SourceMapContent.sourcesContent = none ∨
  ((readSourceMap env mapFilePath).bind SourceMapContent.sourcesContent).getD [] = [] ∨
  sourceIndex ≥ (((readSourceMap env mapFilePath).bind SourceMapContent.sourcesContent).getD []).length

instance (env : SourceMapEnv) (p : String) (i : Nat) :
    Decidable (extractFails env p i) := by
  unfold extractFails; infer_instance

/-- C7: `extractSourceContent` returns `null` exactly in the failure cases
(unreadable/invalid artifact, absent or empty `sourcesContent`, index out
of range), and otherwise returns the recovered original text at the given
index.  The embedding is a total function, so no exception escapes. -/
theorem extractSourceContent_spec (env : SourceMapEnv) (mapFilePath : String)
    (sourceIndex : Nat) :
    (extractSourceContent env mapFilePath sourceIndex = none ↔
      extractFails env mapFilePath sourceIndex) ∧
    (∀ sm sc, readSourceMap env mapFilePath = some sm →
      sm.sourcesContent = some sc → sourceIndex < sc.length →
      extractSourceContent env mapFilePath sourceIndex = sc.get? sourceIndex) := by
  constructor
  · unfold extractSourceContent extractFails
    cases hr : readSourceMap env mapFilePath with
    | none => simp
    | some sm =>
      have hb : (some sm).bind SourceMapContent.sourcesContent =
          sm.sourcesContent := rfl
      cases hc : sm.sourcesContent with
      | none => simp [hb, hc]
      | some sc =>
        simp only [hb, hc, Option.getD_some]
        constructor
        · intro h
          by_cases hlen : sc.length = 0
          · exact Or.inr (Or.inr (Or.inl (List.length_eq_zero.mp hlen)))
          · rw [if_neg hlen] at h
            by_cases hidx : sourceIndex ≥ sc.length
            · exact Or.inr (Or.inr (Or.inr hidx))
            · rw [if_neg hidx] at h
              have hlt : sourceIndex < sc.length := by omega
              rw [List.get?_eq_get hlt] at h
              exact Option.noConfusion h
        · intro h
          rcases h with h | h | h | h
          · exact Option.noConfusion h
          · exact Option.noConfusion h
          · subst h; simp
          · by_cases hlen : sc.length = 0
            · rw [if_pos hlen]
            · rw [if_neg hlen, if_pos h]
  · intro sm sc hr hc hlt
    unfold extractSourceContent
    simp only [hr, hc]
    have h0 : ¬ sc.length = 0 := by omega
    have h1 : ¬ sourceIndex ≥ sc.length := by omega
    rw [if_neg h0, if_neg h1]

/-- Concrete witness environment for C7: a readable artifact that parses
to a map with a single recovered source text. -/
def smEnvW : SourceMapEnv where
  readFile := fun p => if p = "button.props.js.map" then some "RAWMAP" else none
  parse := fun t =>
    if t = "RAWMAP" then
      some { sources := some ["button.props.ts"],
             sourcesContent := some ["export class WmButtonProps {}"] }
    else none

/-- Witness for C7 at a concrete artifact: extraction succeeds and returns
the recovered text, and the failure predicate indeed does not hold. -/
theorem extractSourceContent_spec_witness :
    ¬ extractFails smEnvW "button.props.js.map" 0 ∧
    extractSourceContent smEnvW "button.props.js.map" 0 =
      some "export class WmButtonProps {}" := by
  refine ⟨by decide, ?_⟩
  exact (extractSourceContent_spec smEnvW "button.props.js.map" 0).2
    { sources := some ["button.props.ts"],
      sourcesContent := some ["export class WmButtonProps {}"] }
    ["export class WmButtonProps {}"] rfl rfl (by decide)


/-! ## Inheritance Resolver (doc-generator.ts 51-183) -/

/-- The abstract behaviours of `TypeScriptParser` (`ts-parser.ts` is not in
the repository snapshot); each field is one of its extraction modes.
Modelled from the spec, section 4.2: every mode is a pure function of the
source text producing a typed result or an absent result. -/
structure TypeScriptParserOps where
  extractProps : String → Option PropsInfo
  extractMethods : String → Option MethodsInfo
  extractStyleClasses : String → Option StyleExtract
  extractEventCallbacks : String → List RawEvent
  /-- Modelled from the spec: the parser's test whether a type expression
  denotes a callable shape, used when inferring events from properties. -/
  isCallableType : String → Bool

/-- The library on disk, as seen by the inheritance resolver:
`baseProps` is the content of the `BaseProps` cache built by
`getBaseProps()` (raw parser output for `core/base.component.js.map`);
`search fileName` is the recursive search of the two fixed roots
(`components`, `core`) for `fileName`, returning the first found full
path (`searchForFile`, tried over both roots in order); `extractSource`
is `SourceExtractor.extractSourceContent` at a found path. -/
structure Library where
  baseProps : List RawProp
  search : String → Option String
  extractSource : String → Option String

/-! Character-level equivalents of the JavaScript string primitives the
generator uses.  They are defined by structural recursion over the
character list so that every concrete instance evaluates by reduction. -/

/-- `str.toLowerCase()`. -/
def strToLower (s : String) : String :=
  String.mk (s.data.map Char.toLower)

/-- `str.endsWith(suffix)`. -/
def strEndsWith (s suffix : String) : Bool :=
  suffix.data.reverse.isPrefixOf s.data.reverse

/-- `str.startsWith(pre)`. -/
def strStartsWith (s pre : String) : Bool :=
  pre.data.isPrefixOf s.data

/-- Remove the last `n` characters (the effect of replacing a matched
`n`-character suffix by the empty string). -/
def strDropRight (s : String) (n : Nat) : String :=
  String.mk (s.data.take (s.data.length - n))

/-- `str.substring(n)`. -/
def strDrop (s : String) (n : Nat) : String :=
  String.mk (s.data.drop n)

/-- `toKebab` from `findParentPropsFile` (doc-generator.ts 124): insert a
hyphen between a lowercase-letter-or-digit and an uppercase letter, then
lowercase the result. -/
def kebabChars : List Char → List Char
  | [] => []
  | [c] => [c]
  | a :: b :: rest =>
    if (a.isLower || a.isDigit) && b.isUpper then
      a :: '-' :: kebabChars (b :: rest)
    else
      a :: kebabChars (b :: rest)

def toKebab (s : String) : String :=
  strToLower (String.mk (kebabChars s.data))

/-- Step 1 of `findParentPropsFile`: strip a trailing `Props`, then a
trailing `Component`, from the class name. -/
def cleanClassName (className : String) : String :=
  let s1 := if strEndsWith className "Props" then strDropRight className 5
            else className
  if strEndsWith s1 "Component" then strDropRight s1 9 else s1

/-- `[...new Set(candidates)]`: de-duplicate preserving the first
occurrence of each element, as a JavaScript `Set` does. -/
def dedupFirst (l : List String) : List String :=
  l.foldl (fun acc x => if acc.contains x then acc else acc ++ [x]) []

/-- Step 2 of `findParentPropsFile`: the ordered, de-duplicated candidate
file-name stems — direct lowercase, kebab case, and (for a `Wm` prefixed
name) both again with the first two characters removed. -/
def uniqueCandidates (className : String) : List String :=
  let baseName := cleanClassName className
  let candidates :=
    [strToLower baseName, toKebab baseName] ++
      (if strStartsWith baseName "Wm" then
        let stripped := strDrop baseName 2
        [strToLower stripped, toKebab stripped]
      else [])
  dedupFirst candidates

/-- `findParentPropsFile` (doc-generator.ts 111-158): try each candidate
stem in order, searching for `{stem}.props.js.map`; the first hit wins,
otherwise `null`. -/
def findParentPropsFile (search : String → Option String)
    (className : String) : Option String :=
  (uniqueCandidates className).findSome?
    (fun fileName => search (fileName ++ ".props.js.map"))

/-- Tag a raw parser property as inherited from `from'`
(`{...prop, inherited: true, inheritedFrom: baseClassName}`). -/
def inhProp (from' : String) (p : RawProp) : PropInfo :=
  { name := p.name, type := p.type, optional := p.optional,
    defaultValue := p.defaultValue, inherited := true,
    inheritedFrom := some from' }

/-- Modelled from the spec (scenario 1 and section 3: descriptors are
created by the parser and only later tagged by the resolver): a
component's own parsed property carries `inherited = false` and no
origin. -/
def ownProp (p : RawProp) : PropInfo :=
  { name := p.name, type := p.type, optional := p.optional,
    defaultValue := p.defaultValue, inherited := false,
    inheritedFrom := none }

/-- The `findParentPropsFile` / `extractSourceContent` / `extractProps`
sequence of one `getInheritedProps` step (doc-generator.ts 63-77): fails
— and makes that step contribute nothing — when the parent props file is
not found, its source cannot be recovered, or its parse finds no
property bag. -/
def resolvedPropsInfo (ops : TypeScriptParserOps) (lib : Library)
    (name : String) : Option PropsInfo :=
  (findParentPropsFile lib.search name).bind (fun parentPropsPath =>
    (lib.extractSource parentPropsPath).bind ops.extractProps)

/-- `getInheritedProps` (doc-generator.ts 51-101).  `BaseProps` is the
terminal case served from the cache; otherwise the parent props file is
located, its source extracted and parsed, its properties tagged with the
current class name, and the parent's own declared base class resolved
recursively.  Every failure yields `[]` for that step.  The TypeScript
recursion is unbounded (no cycle guard); `fuel` bounds the recursion
depth in the embedding, and the theorems below hold for every fuel. -/
def getInheritedProps (ops : TypeScriptParserOps) (lib : Library) :
    Nat → String → List PropInfo
  | 0, baseClassName =>
    if baseClassName = "BaseProps" then lib.baseProps.map (inhProp "BaseProps")
    else []
  | fuel + 1, baseClassName =>
    if baseClassName = "BaseProps" then lib.baseProps.map (inhProp "BaseProps")
    else
      match resolvedPropsInfo ops lib baseClassName with
      | none => []
      | some propsInfo =>
        propsInfo.props.map (inhProp baseClassName) ++
          (match propsInfo.baseClass with
           | some b => getInheritedProps ops lib fuel b
           | none => [])

/-- The chain of ancestor type names actually resolved by
`getInheritedProps`, nearest first: a name appears exactly when its
properties were contributed at that step. -/
def ancestorChain (ops : TypeScriptParserOps) (lib : Library) :
    Nat → String → List String
  | 0, baseClassName =>
    if baseClassName = "BaseProps" then ["BaseProps"] else []
  | fuel + 1, baseClassName =>
    if baseClassName = "BaseProps" then ["BaseProps"]
    else
      match resolvedPropsInfo ops lib baseClassName with
      | none => []
      | some propsInfo =>
        baseClassName ::
          (match propsInfo.baseClass with
           | some b => ancestorChain ops lib fuel b
           | none => [])

/-- The block of properties one resolved ancestor contributes
(fuel-independent). -/
def chainProps (ops : TypeScriptParserOps) (lib : Library)
    (name : String) : List PropInfo :=
  if name = "BaseProps" then lib.baseProps.map (inhProp "BaseProps")
  else
    match resolvedPropsInfo ops lib name with
    | none => []
    | some propsInfo => propsInfo.props.map (inhProp name)

theorem getInheritedProps_zero (ops : TypeScriptParserOps) (lib : Library)
    (name : String) :
    getInheritedProps ops lib 0 name =
      if name = "BaseProps" then lib.baseProps.map (inhProp "BaseProps")
      else [] := rfl

theorem getInheritedProps_succ (ops : TypeScriptParserOps) (lib : Library)
    (fuel : Nat) (name : String) :
    getInheritedProps ops lib (fuel + 1) name =
      if name = "BaseProps" then lib.baseProps.map (inhProp "BaseProps")
      else
        match resolvedPropsInfo ops lib name with
        | none => []
        | some propsInfo =>
          propsInfo.props.map (inhProp name) ++
            (match propsInfo.baseClass with
             | some b => getInheritedProps ops lib fuel b
             | none => []) := rfl

theorem ancestorChain_zero (ops : TypeScriptParserOps) (lib : Library)
    (name : String) :
    ancestorChain ops lib 0 name =
      if name = "BaseProps" then ["BaseProps"] else [] := rfl

theorem ancestorChain_succ (ops : TypeScriptParserOps) (lib : Library)
    (fuel : Nat) (name : String) :
    ancestorChain ops lib (fuel + 1) name =
      if name = "BaseProps" then ["BaseProps"]
      else
        match resolvedPropsInfo ops lib name with
        | none => []
        | some propsInfo =>
          name ::
            (match propsInfo.baseClass with
             | some b => ancestorChain ops lib fuel b
             | none => []) := rfl

theorem chainProps_base (ops : TypeScriptParserOps) (lib : Library) :
    chainProps ops lib "BaseProps" = lib.baseProps.map (inhProp "BaseProps") := by
  unfold chainProps
  rw [if_pos rfl]

/-- `getInheritedProps` is the concatenation of the per-ancestor blocks
along the resolved chain, nearest ancestor first. -/
theorem getInheritedProps_eq_chain (ops : TypeScriptParserOps)
    (lib : Library) :
    ∀ (fuel : Nat) (name : String),
      getInheritedProps ops lib fuel name =
        ((ancestorChain ops lib fuel name).map (chainProps ops lib)).flatten := by
  intro fuel
  induction fuel with
  | zero =>
    intro name
    rw [getInheritedProps_zero, ancestorChain_zero]
    by_cases h : name = "BaseProps"
    · rw [if_pos h, if_pos h, List.map_cons, List.map_nil, List.flatten_cons,
        List.flatten_nil, List.append_nil, chainProps_base ops lib]
    · rw [if_neg h, if_neg h, List.map_nil, List.flatten_nil]
  | succ fuel' ih =>
    intro name
    rw [getInheritedProps_succ, ancestorChain_succ]
    by_cases h : name = "BaseProps"
    · rw [if_pos h, if_pos h, List.map_cons, List.map_nil, List.flatten_cons,
        List.flatten_nil, List.append_nil, chainProps_base ops lib]
    · rw [if_neg h, if_neg h]
      have hcp0 : chainProps ops lib name =
          match resolvedPropsInfo ops lib name with
          | none => []
          | some propsInfo => propsInfo.props.map (inhProp name) := by
        unfold chainProps
        rw [if_neg h]
      cases hr : resolvedPropsInfo ops lib name with
      | none => simp only [hr]; rfl
      | some propsInfo =>
        rw [hr] at hcp0
        simp only [hr, List.map_cons, List.flatten_cons, hcp0]
        cases hb : propsInfo.baseClass with
        | none =>
          simp only [List.map_nil, List.flatten_nil, List.append_nil]
        | some b =>
          exact congrArg
            (fun l => List.map (inhProp name) propsInfo.props ++ l) (ih b)

/-- Every property contributed by a chain block is tagged inherited, with
the block's ancestor name as its origin. -/
theorem chainProps_mem (ops : TypeScriptParserOps) (lib : Library)
    (name : String) (p : PropInfo) (hp : p ∈ chainProps ops lib name) :
    p.inherited = true ∧ p.inheritedFrom = some name := by
  unfold chainProps at hp
  by_cases h : name = "BaseProps"
  · rw [if_pos h] at hp
    obtain ⟨r, _, hr⟩ := List.mem_map.mp hp
    subst hr
    exact ⟨rfl, by rw [h]; rfl⟩
  · rw [if_neg h] at hp
    cases hr : resolvedPropsInfo ops lib name with
    | none => rw [hr] at hp; cases hp
    | some propsInfo =>
      rw [hr] at hp
      obtain ⟨r, _, hrr⟩ := List.mem_map.mp hp
      subst hrr
      exact ⟨rfl, rfl⟩

/-! ## Property ordering infrastructure (for claim C1) -/

/-- The index of the first occurrence of a string in a list (length of the
list when absent). -/
def idxOfStr : List String → String → Nat
  | [], _ => 0
  | b :: t, a => if a = b then 0 else idxOfStr t a + 1

theorem idxOfStr_getElem (l : List String) (hnd : l.Nodup) (i : Nat)
    (hi : i < l.length) : idxOfStr l l[i] = i := by
  induction l generalizing i with
  | nil => simp at hi
  | cons b t ih =>
    cases i with
    | zero => simp [idxOfStr]
    | succ n =>
      have hn : n < t.length := by
        simpa using hi
      have hmem : t[n] ∈ t := List.getElem_mem hn
      have hne : t[n] ≠ b := by
        intro hEq
        exact (List.nodup_cons.mp hnd).1 (hEq ▸ hmem)
      have : (b :: t)[n + 1] = t[n] := by simp
      rw [this, idxOfStr, if_neg hne, ih (List.nodup_cons.mp hnd).2 n hn]

/-- The ordering relation of claim C1 on two properties appearing in that
order in a document's property list: an own (non-inherited) property
never follows an inherited one, and between two inherited properties the
origin of the earlier one is at most as far along the resolved ancestor
chain as the origin of the later one. -/
def nearerFirst (chain : List String) (p q : PropInfo) : Prop :=
  (p.inherited = true → q.inherited = true) ∧
  (p.inherited = true → q.inherited = true →
    idxOfStr chain (p.inheritedFrom.getD "") ≤
      idxOfStr chain (q.inheritedFrom.getD ""))

theorem nearerFirst_of_own (chain : List String) (p q : PropInfo)
    (hp : p.inherited = false) : nearerFirst chain p q := by
  constructor
  · intro hcontra
    rw [hp] at hcontra
    exact absurd hcontra (by simp)
  · intro hcontra
    rw [hp] at hcontra
    exact absurd hcontra (by simp)

theorem pairwise_nearerFirst_of_own (chain : List String)
    (l : List PropInfo) (h : ∀ p ∈ l, p.inherited = false) :
    l.Pairwise (nearerFirst chain) :=
  List.pairwise_of_forall_mem_list
    (fun p hp _ _ => nearerFirst_of_own chain p _ (h p hp))

/-- The inherited block produced by `getInheritedProps` is ordered
nearest-ancestor-first, provided the resolved chain visits no ancestor
twice (the code has no cycle guard; on a cyclic chain it would not
terminate and would produce no document at all). -/
theorem getInheritedProps_pairwise (ops : TypeScriptParserOps)
    (lib : Library) (fuel : Nat) (b : String)
    (hnd : (ancestorChain ops lib fuel b).Nodup) :
    (getInheritedProps ops lib fuel b).Pairwise
      (nearerFirst (ancestorChain ops lib fuel b)) := by
  rw [getInheritedProps_eq_chain, List.pairwise_flatten]
  constructor
  · intro blk hblk
    obtain ⟨a, _, rfl⟩ := List.mem_map.mp hblk
    apply List.pairwise_of_forall_mem_list
    intro x hx y hy
    obtain ⟨hxi, hxf⟩ := chainProps_mem ops lib a x hx
    obtain ⟨hyi, hyf⟩ := chainProps_mem ops lib a y hy
    exact ⟨fun _ => hyi, fun _ _ => by rw [hxf, hyf]⟩
  · rw [List.pairwise_map, List.pairwise_iff_getElem]
    intro i j hi hj hij x hx y hy
    obtain ⟨hxi, hxf⟩ := chainProps_mem ops lib _ x hx
    obtain ⟨hyi, hyf⟩ := chainProps_mem ops lib _ y hy
    refine ⟨fun _ => hyi, fun _ _ => ?_⟩
    rw [hxf, hyf]
    simp only [Option.getD_some]
    rw [idxOfStr_getElem _ hnd i hi, idxOfStr_getElem _ hnd j hj]
    omega

/-! ## Event synthesis (doc-generator.ts 278-331) -/

/-- A property-inferred event before its parameter signature is rendered
(name and raw type expression). -/
structure EventPre where
  name : String
  type : String
deriving Repr, DecidableEq

/-- Modelled from the spec (section 4.2, event inference from
properties): `TypeScriptParser.extractEvents` classifies every property
whose name begins with the token `on` and whose type denotes a callable
shape (per the parser's callable test) as an event. -/
def extractEvents (isCallable : String → Bool) (props : List PropInfo) :
    List EventPre :=
  (props.filter (fun p => strStartsWith p.name "on" && isCallable p.type)).map
    (fun p => { name := p.name, type := p.type })

/-- The character class `\s` of the signature regex in
`extractEventParameters` (space, tab, carriage return or newline). -/
def isWsChar (c : Char) : Bool := c.isWhitespace

/-- After the closing parenthesis, the regex requires optional whitespace
followed by `=>`. -/
def arrowAfter (l : List Char) : Bool :=
  match l.dropWhile isWsChar with
  | '=' :: '>' :: _ => true
  | _ => false

/-- The lazy group `(.*?)\)\s*=>` of the regex, started just after an
opening parenthesis: the shortest prefix (not containing a line break,
which `.` cannot match) that is followed by `)` and then the arrow. -/
def lazyCapture : List Char → Option (List Char)
  | [] => none
  | c :: rest =>
    if c = ')' && arrowAfter rest then some []
    else if c = '\n' || c = '\r' then none
    else (lazyCapture rest).map (fun cap => c :: cap)

/-- The leftmost match of `/\((.*?)\)\s*=>/`: scan for the first opening
parenthesis from which the lazy group completes. -/
def findArrowParams : List Char → Option (List Char)
  | [] => none
  | c :: rest =>
    if c = '(' then
      match lazyCapture rest with
      | some cap => some cap
      | none => findArrowParams rest
    else findArrowParams rest

/-- `extractEventParameters` (doc-generator.ts 422-435): `"()"` for a
bare `Function` type, the captured parameter list for an arrow-function
type, else the type expression verbatim. -/
def extractEventParameters (eventType : String) : String :=
  if eventType = "Function" then "()"
  else
    match findArrowParams eventType.data with
    | some cap => "(" ++ String.mk cap ++ ")"
    | none => eventType

/-- One JavaScript `Map.set` step on an insertion-ordered association
list: an existing key keeps its position and gets the new value, a new
key is appended. -/
def mapSet (m : List (String × EventInfo)) (k : String) (v : EventInfo) :
    List (String × EventInfo) :=
  if m.any (fun kv => kv.1 = k) then
    m.map (fun kv => if kv.1 = k then (k, v) else kv)
  else m ++ [(k, v)]

/-- The event merge of `generateComponentDoc` (doc-generator.ts
327-331): a `Map` keyed by event name receives the property-inferred
events and then the call-site events (overwriting on duplicate names),
and the merged list is the map's values in insertion order. -/
def mergeEvents (propsEvents callbackEvents : List EventInfo) :
    List EventInfo :=
  (callbackEvents.foldl (fun m e => mapSet m e.name e)
    (propsEvents.foldl (fun m e => mapSet m e.name e) [])).map Prod.snd

/-- `{ name, type: 'Function', parameters }` as pushed onto
`callbackEvents` in `generateComponentDoc`. -/
def toCallbackEvent (e : RawEvent) : EventInfo :=
  { name := e.name, type := "Function", parameters := e.parameters }

/-- The call-site event accumulation of `generateComponentDoc`
(doc-generator.ts 290-325): the component's own extracted callback
events are pushed unconditionally, then for each referenced component's
event list an event is pushed only when no event of that name is already
present. -/
def buildCallbackEvents (own : List RawEvent)
    (refs : List (List RawEvent)) : List EventInfo :=
  refs.foldl
    (fun acc refEvents =>
      refEvents.foldl
        (fun acc2 e =>
          if (acc2.find? (fun existing => existing.name = e.name)).isSome
          then acc2
          else acc2 ++ [toCallbackEvent e])
        acc)
    (own.map toCallbackEvent)

/-! ## Document assembly (`generateComponentDoc`, doc-generator.ts 239-394) -/

/-- The raw text of the three per-component artifacts recovered by
`SourceExtractor.extractComponentSources`. -/
structure ComponentSources where
  props : Option String
  component : Option String
  styles : Option String

/-- Everything `generateComponentDoc` reads for one component.  The
file-system interactions that only feed later stages are summarized by
their results: `jsFile` is the content of
`{componentPath}/{componentName}.component.js` when that file exists;
`refFiles` are the contents of those files named by
`findReferencedComponents` that exist, in order; `childDocs` are the
documents the recursive calls for the configured child map produced, in
declared order. -/
structure GenEnv where
  ops : TypeScriptParserOps
  lib : Library
  fuel : Nat
  componentName : String
  componentPath : String
  category : String
  sources : ComponentSources
  jsFile : Option String
  refFiles : List String
  childDocs : List ComponentDoc
  config : GeneratorConfig

/-- `TypeScriptParser.extractProps(sources.props)` when the props source
exists. -/
def parsedPropsInfo (env : GenEnv) : Option PropsInfo :=
  env.sources.props.bind env.ops.extractProps

/-- `allProps` after the inherited properties have been pushed
(doc-generator.ts 252-266): the component's own parsed properties
followed by the inherited ones for its declared base class. -/
def docAllProps (env : GenEnv) : List PropInfo :=
  match parsedPropsInfo env with
  | none => []
  | some propsInfo =>
    propsInfo.props.map ownProp ++
      (match propsInfo.baseClass with
       | some b => getInheritedProps env.ops env.lib env.fuel b
       | none => [])

/-- The `baseClass` local of `generateComponentDoc`: assigned only when
the props parse succeeded. -/
def docBaseClass (env : GenEnv) : Option String :=
  (parsedPropsInfo env).bind PropsInfo.baseClass

/-- The `methods` local (doc-generator.ts 270-276). -/
def docMethods (env : GenEnv) : List MethodInfo :=
  match env.sources.component.bind env.ops.extractMethods with
  | none => []
  | some methodsInfo => methodsInfo.methods

/-- The `propsEvents` local (doc-generator.ts 279-283). -/
def docPropsEvents (env : GenEnv) : List EventInfo :=
  (extractEvents env.ops.isCallableType (docAllProps env)).map
    (fun e => { name := e.name, type := e.type,
                parameters := extractEventParameters e.type })

/-- The `callbackEvents` local (doc-generator.ts 288-325): empty when
the compiled component file does not exist. -/
def docCallbackEvents (env : GenEnv) : List EventInfo :=
  match env.jsFile with
  | none => []
  | some jsContent =>
    buildCallbackEvents (env.ops.extractEventCallbacks jsContent)
      (env.refFiles.map env.ops.extractEventCallbacks)

/-- The `events` local: merged property- and call-site-inferred events. -/
def docEvents (env : GenEnv) : List EventInfo :=
  mergeEvents (docPropsEvents env) (docCallbackEvents env)

/-- The `styles` local (doc-generator.ts 334-350): the default class
first with the synthetic description, then the remaining registered
classes with the default filtered out. -/
def docStyles (env : GenEnv) : List StyleInfo :=
  match env.sources.styles.bind env.ops.extractStyleClasses with
  | none => []
  | some styleInfo =>
    { className := styleInfo.defaultClass,
      description := some "Default style class" } ::
      (styleInfo.styleClasses.filter
        (fun cls => cls ≠ styleInfo.defaultClass)).map
        (fun cls => { className := cls, description := none })

/-- `children: childData.length > 0 ? childData : undefined`. -/
def docChildren (env : GenEnv) : Option (List ComponentDoc) :=
  if env.childDocs.length > 0 then some env.childDocs else none

/-- The `doc` object literal of `generateComponentDoc`
(doc-generator.ts 376-386); `description` is not set there. -/
def assembledDoc (env : GenEnv) : ComponentDoc :=
  .mk env.componentName env.componentPath env.category (docAllProps env)
    (docMethods env) (docEvents env) (docStyles env) (docBaseClass env)
    (docChildren env) none

/-- `generateComponentDoc` (doc-generator.ts 239-394): `null` when
neither a props nor a component source was recovered, otherwise the
assembled document with the configuration filters applied. -/
def generateComponentDoc (env : GenEnv) : Option ComponentDoc :=
  if env.sources.props.isNone && env.sources.component.isNone then none
  else some (filterComponentDoc env.config.documentation (assembledDoc env))

/-! ## Claim C1: property ordering of a generated document -/

/-- The resolved ancestor chain of the document generated from `env`,
starting from the component's declared base class (empty when no base
class was declared or the props parse failed). -/
def docChain (env : GenEnv) : List String :=
  match docBaseClass env with
  | some b => ancestorChain env.ops env.lib env.fuel b
  | none => []

theorem generateComponentDoc_inv (env : GenEnv) (doc : ComponentDoc)
    (hdoc : generateComponentDoc env = some doc) :
    doc = filterComponentDoc env.config.documentation (assembledDoc env) := by
  unfold generateComponentDoc at hdoc
  by_cases hc : env.sources.props.isNone && env.sources.component.isNone
  · rw [if_pos hc] at hdoc
    cases hdoc
  · rw [if_neg hc] at hdoc
    exact (Option.some.inj hdoc).symm

theorem filtered_doc_props (env : GenEnv) :
    (filterComponentDoc env.config.documentation (assembledDoc env)).props =
      (docAllProps env).filter
        (propKept env.config.documentation env.componentName) := rfl

theorem docAllProps_none (env : GenEnv) (hp : parsedPropsInfo env = none) :
    docAllProps env = [] := by
  unfold docAllProps
  rw [hp]

theorem docAllProps_eq_noBase (env : GenEnv) (info : PropsInfo)
    (hp : parsedPropsInfo env = some info) (hb : info.baseClass = none) :
    docAllProps env = info.props.map ownProp := by
  unfold docAllProps
  simp only [hp, hb, List.append_nil]

theorem docAllProps_eq_base (env : GenEnv) (info : PropsInfo) (b : String)
    (hp : parsedPropsInfo env = some info) (hb : info.baseClass = some b) :
    docAllProps env =
      info.props.map ownProp ++
        getInheritedProps env.ops env.lib env.fuel b := by
  unfold docAllProps
  simp only [hp, hb]

theorem docChain_eq_base (env : GenEnv) (info : PropsInfo) (b : String)
    (hp : parsedPropsInfo env = some info) (hb : info.baseClass = some b) :
    docChain env = ancestorChain env.ops env.lib env.fuel b := by
  unfold docChain docBaseClass
  simp only [hp, Option.some_bind, hb]

/-- C1: in every document produced by `generateComponentDoc`, every
non-inherited property precedes every inherited property, and among the
inherited properties those tagged with a nearer ancestor (resolved
earlier in the chain starting from the declared base class) precede
those tagged with a farther ancestor — provided the resolved chain
visits no ancestor twice, which is the only situation in which the
unguarded TypeScript recursion terminates. -/
theorem generateComponentDoc_props_ordering (env : GenEnv)
    (doc : ComponentDoc) (hdoc : generateComponentDoc env = some doc)
    (hnd : (docChain env).Nodup) :
    doc.props.Pairwise (nearerFirst (docChain env)) := by
  have hde := generateComponentDoc_inv env doc hdoc
  subst hde
  rw [filtered_doc_props]
  apply List.Pairwise.sublist (List.filter_sublist _)
  cases hp : parsedPropsInfo env with
  | none =>
    rw [docAllProps_none env hp]
    exact List.Pairwise.nil
  | some info =>
    cases hb : info.baseClass with
    | none =>
      rw [docAllProps_eq_noBase env info hp hb]
      apply pairwise_nearerFirst_of_own
      intro p hmem
      obtain ⟨r, _, rfl⟩ := List.mem_map.mp hmem
      rfl
    | some b =>
      rw [docAllProps_eq_base env info b hp hb]
      rw [docChain_eq_base env info b hp hb] at hnd ⊢
      rw [List.pairwise_append]
      refine ⟨?_, getInheritedProps_pairwise env.ops env.lib env.fuel b hnd, ?_⟩
      · apply pairwise_nearerFirst_of_own
        intro p hmem
        obtain ⟨r, _, rfl⟩ := List.mem_map.mp hmem
        rfl
      · intro x hx y _
        obtain ⟨r, _, rfl⟩ := List.mem_map.mp hx
        exact nearerFirst_of_own _ _ _ rfl

/-! Concrete witness data: a `button` component whose property bag
extends `BaseInputProps`, which in turn extends the root `BaseProps`. -/

def opsW : TypeScriptParserOps where
  extractProps := fun s =>
    if s = "SRC_BUTTON" then
      some { className := "WmButtonProps",
             props := [{ name := "caption", type := "string",
                         optional := false, defaultValue := none }],
             baseClass := some "BaseInputProps" }
    else if s = "SRC_BASEINPUT" then
      some { className := "BaseInputProps",
             props := [{ name := "disabled", type := "boolean",
                         optional := true, defaultValue := some "false" }],
             baseClass := some "BaseProps" }
    else none
  extractMethods := fun _ => none
  extractStyleClasses := fun _ => none
  extractEventCallbacks := fun _ => []
  isCallableType := fun _ => false

def libW : Library where
  baseProps := [{ name := "id", type := "string", optional := false,
                  defaultValue := none }]
  search := fun fn =>
    if fn = "baseinput.props.js.map" then
      some "components/input/baseinput/baseinput.props.js.map"
    else none
  extractSource := fun p =>
    if p = "components/input/baseinput/baseinput.props.js.map" then
      some "SRC_BASEINPUT"
    else none

def docCfgEmpty : DocumentationConfig :=
  { excludeProps := [], excludeInheritedProps := [], excludeMethods := [],
    excludeStyleClasses := [], componentOverrides := [] }

def cfgW : GeneratorConfig :=
  { includeComponents := [], childComponents := [], componentAliases := [],
    excludeCategories := [], excludeComponents := [],
    documentation := docCfgEmpty,
    llm := { provider := "claude", model := none, storybookPath := "",
             batchSize := some 10 } }

def envW : GenEnv :=
  { ops := opsW, lib := libW, fuel := 4, componentName := "button",
    componentPath := "components/basic/button", category := "basic",
    sources := { props := some "SRC_BUTTON", component := none,
                 styles := none },
    jsFile := none, refFiles := [], childDocs := [], config := cfgW }

theorem docChainW_eq : docChain envW = ["BaseInputProps", "BaseProps"] := rfl

theorem docChainW_nodup : (docChain envW).Nodup := by
  rw [docChainW_eq]
  simp

/-- Witness for C1: on the concrete `button` environment a document is
produced, the resolved chain (`BaseInputProps`, `BaseProps`) is
duplicate-free, and the ordering invariant holds for its properties. -/
theorem generateComponentDoc_props_ordering_witness :
    generateComponentDoc envW =
      some ((generateComponentDoc envW).getD (assembledDoc envW)) ∧
    (docChain envW).Nodup ∧
    ((generateComponentDoc envW).getD (assembledDoc envW)).props.Pairwise
      (nearerFirst (docChain envW)) :=
  ⟨rfl, docChainW_nodup,
    generateComponentDoc_props_ordering envW _ rfl docChainW_nodup⟩

/-! ## Claim C6: unresolved ancestor truncates the chain -/

def opsNone : TypeScriptParserOps where
  extractProps := fun _ => none
  extractMethods := fun _ => none
  extractStyleClasses := fun _ => none
  extractEventCallbacks := fun _ => []
  isCallableType := fun _ => false

/-- A library in which no props file exists anywhere, but whose
`BaseProps` cache is populated (the cache is built from
`core/base.component.js.map`, a *component* artifact, so it can be
non-empty while no `.props.js.map` file exists at all). -/
def libC6 : Library where
  baseProps := [{ name := "id", type := "string", optional := false,
                  defaultValue := none }]
  search := fun _ => none
  extractSource := fun _ => none

/-- Counterexample to C6 as stated: for the base class name `BaseProps`
every candidate file-name stem matches no file under any search root,
yet `getInheritedProps` returns a non-empty list — the root type is
served from the `getBaseProps()` cache and never consults the file
search, so "candidate stems match no file" does not imply an empty
result for it. -/
theorem getInheritedProps_unresolved_counterexample :
    ((uniqueCandidates "BaseProps").all
      (fun c => (libC6.search (c ++ ".props.js.map")).isNone)) = true ∧
    getInheritedProps opsNone libC6 3 "BaseProps" ≠ [] :=
  ⟨rfl, by decide⟩

theorem findParentPropsFile_none (search : String → Option String)
    (className : String)
    (h : ∀ c ∈ uniqueCandidates className,
      search (c ++ ".props.js.map") = none) :
    findParentPropsFile search className = none := by
  unfold findParentPropsFile
  exact List.findSome?_eq_none_iff.mpr h

theorem getInheritedProps_eq_nil_of_unresolved (ops : TypeScriptParserOps)
    (lib : Library) (fuel : Nat) (b : String)
    (hroot : b ≠ "BaseProps")
    (hsearch : ∀ c ∈ uniqueCandidates b,
      lib.search (c ++ ".props.js.map") = none) :
    getInheritedProps ops lib fuel b = [] := by
  have hf : findParentPropsFile lib.search b = none :=
    findParentPropsFile_none lib.search b hsearch
  have hr : resolvedPropsInfo ops lib b = none := by
    unfold resolvedPropsInfo
    rw [hf]
    rfl
  cases fuel with
  | zero => rw [getInheritedProps_zero, if_neg hroot]
  | succ fuel' => rw [getInheritedProps_succ, if_neg hroot, hr]

/-- C6 (amended): for every base class name *other than the cached root
type `BaseProps`* whose candidate file-name stems match no
property-declaration file under any search root, `getInheritedProps`
returns the empty inherited list (the embedding is a total function, so
no exception is raised), and the enclosing component's document still
contains every one of the component's own extracted properties *that the
configured exclusion filters keep* — its property list is exactly the
filtered own list. -/
theorem getInheritedProps_unresolved (env : GenEnv) (info : PropsInfo)
    (b : String) (doc : ComponentDoc)
    (hp : parsedPropsInfo env = some info)
    (hb : info.baseClass = some b)
    (hroot : b ≠ "BaseProps")
    (hsearch : ∀ c ∈ uniqueCandidates b,
      env.lib.search (c ++ ".props.js.map") = none)
    (hdoc : generateComponentDoc env = some doc) :
    getInheritedProps env.ops env.lib env.fuel b = [] ∧
    doc.props = (info.props.map ownProp).filter
      (propKept env.config.documentation env.componentName) ∧
    (∀ r ∈ info.props,
      propKept env.config.documentation env.componentName (ownProp r) = true →
      ownProp r ∈ doc.props) := by
  have hnil : getInheritedProps env.ops env.lib env.fuel b = [] :=
    getInheritedProps_eq_nil_of_unresolved env.ops env.lib env.fuel b
      hroot hsearch
  have hall : docAllProps env = info.props.map ownProp := by
    rw [docAllProps_eq_base env info b hp hb, hnil, List.append_nil]
  have hde := generateComponentDoc_inv env doc hdoc
  subst hde
  rw [filtered_doc_props, hall]
  refine ⟨hnil, rfl, ?_⟩
  intro r hr hkept
  exact List.mem_filter.mpr ⟨List.mem_map_of_mem ownProp hr, hkept⟩

/-! Concrete witness data for C6: a component whose property bag extends
a `GhostProps` class that matches no file anywhere. -/

def opsC6W : TypeScriptParserOps where
  extractProps := fun s =>
    if s = "SRC_LABEL" then
      some { className := "WmLabelProps",
             props := [{ name := "caption", type := "string",
                         optional := false, defaultValue := none }],
             baseClass := some "GhostProps" }
    else none
  extractMethods := fun _ => none
  extractStyleClasses := fun _ => none
  extractEventCallbacks := fun _ => []
  isCallableType := fun _ => false

def envC6W : GenEnv :=
  { ops := opsC6W, lib := libC6, fuel := 4, componentName := "label",
    componentPath := "components/basic/label", category := "basic",
    sources := { props := some "SRC_LABEL", component := none,
                 styles := none },
    jsFile := none, refFiles := [], childDocs := [], config := cfgW }

def infoC6W : PropsInfo :=
  { className := "WmLabelProps",
    props := [{ name := "caption", type := "string", optional := false,
                defaultValue := none }],
    baseClass := some "GhostProps" }

/-- Witness for C6 (amended) at a concrete component: `GhostProps`
resolves to no file, the inherited list is empty, and the own `caption`
property is still present in the produced document. -/
theorem getInheritedProps_unresolved_witness :
    getInheritedProps envC6W.ops envC6W.lib envC6W.fuel "GhostProps" = [] ∧
    ((generateComponentDoc envC6W).getD (assembledDoc envC6W)).props =
      (infoC6W.props.map ownProp).filter
        (propKept envC6W.config.documentation envC6W.componentName) ∧
    (∀ r ∈ infoC6W.props,
      propKept envC6W.config.documentation envC6W.componentName
        (ownProp r) = true →
      ownProp r ∈ ((generateComponentDoc envC6W).getD
        (assembledDoc envC6W)).props) :=
  getInheritedProps_unresolved envC6W infoC6W "GhostProps" _
    rfl rfl (by decide) (by decide) rfl

/-! ## Claim C2 infrastructure: the event-name `Map` -/

/-- The keys of the event map, in insertion order. -/
def evKeys (m : List (String × EventInfo)) : List String :=
  m.map Prod.fst

/-- Well-formedness of the event map as built by `mergeEvents`: keys are
pairwise distinct and every value's name equals its key. -/
def evWf (m : List (String × EventInfo)) : Prop :=
  (evKeys m).Nodup ∧ ∀ kv ∈ m, kv.2.name = kv.1

theorem mapSet_any_iff (m : List (String × EventInfo)) (k : String) :
    (m.any (fun kv => kv.1 = k)) = true ↔ k ∈ evKeys m := by
  simp [evKeys, List.any_eq_true, List.mem_map]

theorem evKeys_mapSet (m : List (String × EventInfo)) (k : String)
    (v : EventInfo) :
    evKeys (mapSet m k v) =
      if k ∈ evKeys m then evKeys m else evKeys m ++ [k] := by
  by_cases hmem : k ∈ evKeys m
  · rw [if_pos hmem]
    unfold mapSet
    rw [if_pos ((mapSet_any_iff m k).mpr hmem)]
    unfold evKeys
    rw [List.map_map]
    apply List.map_congr_left
    intro kv _
    by_cases h : kv.1 = k
    · simp [h]
    · simp [h]
  · rw [if_neg hmem]
    unfold mapSet
    rw [if_neg (fun hc => hmem ((mapSet_any_iff m k).mp hc))]
    simp [evKeys]

theorem mem_evKeys_mapSet (m : List (String × EventInfo)) (k n : String)
    (v : EventInfo) :
    n ∈ evKeys (mapSet m k v) ↔ n ∈ evKeys m ∨ n = k := by
  rw [evKeys_mapSet]
  by_cases hmem : k ∈ evKeys m
  · rw [if_pos hmem]
    constructor
    · exact Or.inl
    · rintro (h | rfl)
      · exact h
      · exact hmem
  · rw [if_neg hmem]
    simp

theorem evWf_mapSet (m : List (String × EventInfo)) (k : String)
    (v : EventInfo) (hw : evWf m) (hv : v.name = k) :
    evWf (mapSet m k v) := by
  obtain ⟨hnd, hval⟩ := hw
  by_cases hmem : k ∈ evKeys m
  · constructor
    · rw [evKeys_mapSet, if_pos hmem]
      exact hnd
    · unfold mapSet
      rw [if_pos ((mapSet_any_iff m k).mpr hmem)]
      intro kv hkv
      obtain ⟨kv0, hkv0, hEq⟩ := List.mem_map.mp hkv
      by_cases h : kv0.1 = k
      · rw [if_pos h] at hEq
        rw [← hEq]
        exact hv
      · rw [if_neg h] at hEq
        rw [← hEq]
        exact hval kv0 hkv0
  · constructor
    · rw [evKeys_mapSet, if_neg hmem]
      rw [List.nodup_append]
      exact ⟨hnd, List.nodup_singleton k,
        fun a ha => by simp; rintro rfl; exact hmem ha⟩
    · unfold mapSet
      rw [if_neg (fun hc => hmem ((mapSet_any_iff m k).mp hc))]
      intro kv hkv
      rcases List.mem_append.mp hkv with h | h
      · exact hval kv h
      · rw [List.mem_singleton] at h
        rw [h]
        exact hv

/-- One fold step of `mergeEvents`. -/
def evStep (m : List (String × EventInfo)) (e : EventInfo) :
    List (String × EventInfo) :=
  mapSet m e.name e

theorem evWf_foldl (l : List EventInfo) :
    ∀ (m : List (String × EventInfo)), evWf m → evWf (l.foldl evStep m) := by
  induction l with
  | nil => exact fun m hm => hm
  | cons e t ih =>
    intro m hm
    exact ih (evStep m e) (evWf_mapSet m e.name e hm rfl)

theorem mem_evKeys_foldl (l : List EventInfo) (n : String) :
    ∀ (m : List (String × EventInfo)),
      (n ∈ evKeys (l.foldl evStep m) ↔
        n ∈ evKeys m ∨ n ∈ l.map EventInfo.name) := by
  induction l with
  | nil => simp
  | cons e t ih =>
    intro m
    rw [List.foldl_cons, ih (evStep m e)]
    unfold evStep
    rw [mem_evKeys_mapSet]
    simp only [List.map_cons, List.mem_cons]
    tauto

theorem evValues_filter_count (m : List (String × EventInfo)) (n : String)
    (hw : evWf m) :
    ((m.map Prod.snd).filter (fun e => e.name = n)).length =
      if n ∈ evKeys m then 1 else 0 := by
  induction m with
  | nil => simp [evKeys]
  | cons kv t ih =>
    obtain ⟨hnd, hval⟩ := hw
    have hhead : kv.2.name = kv.1 := hval kv (List.mem_cons_self kv t)
    have hndt : (evKeys t).Nodup := (List.nodup_cons.mp hnd).2
    have hnotin : kv.1 ∉ evKeys t := (List.nodup_cons.mp hnd).1
    have hwt : evWf t := ⟨hndt, fun kv' h => hval kv' (List.mem_cons_of_mem kv h)⟩
    by_cases h : kv.1 = n
    · have hkeys : n ∈ evKeys (kv :: t) := by
        unfold evKeys
        rw [List.map_cons]
        exact h ▸ List.mem_cons_self _ _
      rw [if_pos hkeys]
      rw [List.map_cons, List.filter_cons,
        if_pos (decide_eq_true (hhead.trans h))]
      rw [List.length_cons, ih hwt]
      rw [if_neg (h ▸ hnotin)]
    · have hne : ¬ (kv.2.name = n) := fun hc => h (hhead.symm.trans hc)
      rw [List.map_cons, List.filter_cons, if_neg (by simp [hne])]
      rw [ih hwt]
      have : (n ∈ evKeys (kv :: t)) ↔ n ∈ evKeys t := by
        unfold evKeys
        rw [List.map_cons, List.mem_cons]
        constructor
        · rintro (rfl | hh)
          · exact absurd rfl h
          · exact hh
        · exact Or.inr
      rw [if_congr this rfl rfl]

theorem pair_mem_mapSet_of_ne (m : List (String × EventInfo))
    (k₀ : String) (v₀ : EventInfo) (k : String) (v : EventInfo)
    (hmem : (k₀, v₀) ∈ m) (hne : k ≠ k₀) :
    (k₀, v₀) ∈ mapSet m k v := by
  unfold mapSet
  by_cases hc : (m.any (fun kv => kv.1 = k)) = true
  · rw [if_pos hc]
    have : (if (k₀, v₀).1 = k then (k, v) else (k₀, v₀)) = (k₀, v₀) := by
      rw [if_neg (fun hcc => hne (hcc.symm))]
    exact this ▸ List.mem_map_of_mem _ hmem
  · rw [if_neg hc]
    exact List.mem_append_left _ hmem

theorem pair_mem_mapSet_self (m : List (String × EventInfo))
    (v : EventInfo) :
    (v.name, v) ∈ mapSet m v.name v := by
  unfold mapSet
  by_cases hc : (m.any (fun kv => kv.1 = v.name)) = true
  · rw [if_pos hc]
    obtain ⟨kv, hkv, hp⟩ := List.any_eq_true.mp hc
    have hp' : kv.1 = v.name := by simpa using hp
    have himg2 : (if kv.1 = v.name then (v.name, v) else kv) ∈
        List.map (fun kv => if kv.1 = v.name then (v.name, v) else kv) m :=
      List.mem_map_of_mem
        (fun kv => if kv.1 = v.name then (v.name, v) else kv) hkv
    rw [if_pos hp'] at himg2
    exact himg2
  · rw [if_neg hc]
    exact List.mem_append_right _ (List.mem_singleton.mpr rfl)

theorem pair_mem_foldl_of_absent (l : List EventInfo) (k₀ : String)
    (v₀ : EventInfo) :
    ∀ (m : List (String × EventInfo)), (k₀, v₀) ∈ m →
      (∀ e ∈ l, e.name ≠ k₀) → (k₀, v₀) ∈ l.foldl evStep m := by
  induction l with
  | nil => exact fun m hm _ => hm
  | cons e t ih =>
    intro m hm habs
    rw [List.foldl_cons]
    exact ih (evStep m e)
      (pair_mem_mapSet_of_ne m k₀ v₀ e.name e hm
        (habs e (List.mem_cons_self e t)))
      (fun e' he' => habs e' (List.mem_cons_of_mem e he'))

theorem filter_values_eq_nil (t : List (String × EventInfo)) (k₀ : String)
    (hval : ∀ kv ∈ t, kv.2.name = kv.1) (habs : k₀ ∉ evKeys t) :
    (t.map Prod.snd).filter (fun e => e.name = k₀) = [] := by
  induction t with
  | nil => rfl
  | cons kv t' ih =>
    have hne : kv.1 ≠ k₀ := by
      intro hc
      exact habs (hc ▸ List.mem_cons_self kv.1 (evKeys t'))
    have hhead : kv.2.name = kv.1 := hval kv (List.mem_cons_self kv t')
    have hnomatch : ¬ (kv.2.name = k₀) := fun hc => hne (hhead.symm.trans hc)
    rw [List.map_cons, List.filter_cons, if_neg (by simp [hnomatch])]
    exact ih (fun kv' h => hval kv' (List.mem_cons_of_mem kv h))
      (fun hc => habs (List.mem_cons_of_mem kv.1 hc))

theorem filter_values_eq_single (m : List (String × EventInfo))
    (k₀ : String) (v₀ : EventInfo) (hw : evWf m) (hmem : (k₀, v₀) ∈ m) :
    (m.map Prod.snd).filter (fun e => e.name = k₀) = [v₀] := by
  induction m with
  | nil => cases hmem
  | cons kv t ih =>
    obtain ⟨hnd, hval⟩ := hw
    have hhead : kv.2.name = kv.1 := hval kv (List.mem_cons_self kv t)
    have hnotin : kv.1 ∉ evKeys t := (List.nodup_cons.mp hnd).1
    have hwt : evWf t := ⟨(List.nodup_cons.mp hnd).2,
      fun kv' h => hval kv' (List.mem_cons_of_mem kv h)⟩
    rcases List.mem_cons.mp hmem with hEq | hmemt
    · have hfst : kv.1 = k₀ := by rw [← hEq]
      have hsnd : kv.2 = v₀ := by rw [← hEq]
      rw [List.map_cons, List.filter_cons,
        if_pos (decide_eq_true (hhead.trans hfst)), hsnd,
        filter_values_eq_nil t k₀ hwt.2 (hfst ▸ hnotin)]
    · have hkt : k₀ ∈ evKeys t :=
        List.mem_map_of_mem Prod.fst hmemt
      have hne : kv.1 ≠ k₀ := fun hc => hnotin (hc ▸ hkt)
      have hnomatch : ¬ (kv.2.name = k₀) := fun hc => hne (hhead.symm.trans hc)
      rw [List.map_cons, List.filter_cons, if_neg (by simp [hnomatch])]
      exact ih hwt hmemt

theorem doc_events_eq (env : GenEnv) :
    (filterComponentDoc env.config.documentation (assembledDoc env)).events =
      mergeEvents (docPropsEvents env) (docCallbackEvents env) := rfl

/-- C2: in the merged event list of a generated document every event name
occurring in the property-inferred list or in the call-site-inferred list
appears exactly once, and for a name occurring in both lists the final
descriptor is the call-site-inferred one (its `type` and `parameters`
fields included), not the property-inferred one.  The call-site list is
assumed to carry pairwise distinct names so that "the call-site-inferred
descriptor" is well defined. -/
theorem generateComponentDoc_events_merge (env : GenEnv)
    (doc : ComponentDoc) (hdoc : generateComponentDoc env = some doc)
    (hnd : ((docCallbackEvents env).map EventInfo.name).Nodup) :
    (∀ n : String,
      (doc.events.filter (fun e => e.name = n)).length =
        (if n ∈ (docPropsEvents env).map EventInfo.name ∨
            n ∈ (docCallbackEvents env).map EventInfo.name
         then 1 else 0)) ∧
    (∀ e ∈ docCallbackEvents env,
      e.name ∈ (docPropsEvents env).map EventInfo.name →
      doc.events.filter (fun e2 => e2.name = e.name) = [e]) := by
  have hde := generateComponentDoc_inv env doc hdoc
  subst hde
  rw [doc_events_eq]
  have hmerge : mergeEvents (docPropsEvents env) (docCallbackEvents env) =
      ((docCallbackEvents env).foldl evStep
        ((docPropsEvents env).foldl evStep [])).map Prod.snd := rfl
  have hwnil : evWf [] :=
    ⟨List.nodup_nil, fun kv h => absurd h (List.not_mem_nil kv)⟩
  have hm1 : evWf ((docPropsEvents env).foldl evStep []) :=
    evWf_foldl (docPropsEvents env) [] hwnil
  have hm2 : evWf ((docCallbackEvents env).foldl evStep
      ((docPropsEvents env).foldl evStep [])) :=
    evWf_foldl (docCallbackEvents env) _ hm1
  have hkeys : ∀ n : String,
      (n ∈ evKeys ((docCallbackEvents env).foldl evStep
        ((docPropsEvents env).foldl evStep []))) ↔
      (n ∈ (docPropsEvents env).map EventInfo.name ∨
       n ∈ (docCallbackEvents env).map EventInfo.name) := by
    intro n
    rw [mem_evKeys_foldl, mem_evKeys_foldl]
    simp [evKeys]
  constructor
  · intro n
    rw [hmerge, evValues_filter_count _ n hm2, if_congr (hkeys n) rfl rfl]
  · intro e he hps
    rw [hmerge]
    apply filter_values_eq_single _ e.name e hm2
    obtain ⟨s, t, hst⟩ := List.append_of_mem he
    have hnd' := hnd
    rw [hst, List.map_append, List.map_cons, List.nodup_middle] at hnd'
    have habs : e.name ∉ s.map EventInfo.name ++ t.map EventInfo.name :=
      (List.nodup_cons.mp hnd').1
    rw [hst, List.foldl_append, List.foldl_cons]
    apply pair_mem_foldl_of_absent t e.name e
    · exact pair_mem_mapSet_self _ e
    · intro x hx hcx
      exact habs (List.mem_append_right _
        (hcx ▸ List.mem_map_of_mem EventInfo.name hx))

/-! Concrete witness data for C2: a `checkbox` component with an `onTap`
callback-shaped property and an `onTap` emission call site whose literal
parameters differ. -/

def opsC2W : TypeScriptParserOps where
  extractProps := fun s =>
    if s = "SRC_CHECKBOX" then
      some { className := "WmCheckboxProps",
             props := [{ name := "onTap", type := "(event) => void",
                         optional := true, defaultValue := none }],
             baseClass := none }
    else none
  extractMethods := fun _ => none
  extractStyleClasses := fun _ => none
  extractEventCallbacks := fun js =>
    if js = "JS_CHECKBOX" then [{ name := "onTap",
                                  parameters := "(event, widget)" }]
    else []
  isCallableType := fun t => strStartsWith t "("

def envC2W : GenEnv :=
  { ops := opsC2W, lib := libC6, fuel := 4, componentName := "checkbox",
    componentPath := "components/input/checkbox", category := "input",
    sources := { props := some "SRC_CHECKBOX", component := none,
                 styles := none },
    jsFile := some "JS_CHECKBOX", refFiles := [], childDocs := [],
    config := cfgW }

theorem psNamesC2 :
    (docPropsEvents envC2W).map EventInfo.name = ["onTap"] := rfl

theorem csC2 : docCallbackEvents envC2W =
    [{ name := "onTap", type := "Function",
       parameters := "(event, widget)" }] := rfl

theorem csNodupC2 :
    ((docCallbackEvents envC2W).map EventInfo.name).Nodup := by
  have h : (docCallbackEvents envC2W).map EventInfo.name = ["onTap"] := rfl
  rw [h]
  simp

/-- Witness for C2: on the concrete checkbox environment the merged list
contains `onTap` exactly once, and its descriptor is the call-site one
(`parameters = "(event, widget)"`), not the property-derived
`"(event)"`. -/
theorem generateComponentDoc_events_merge_witness :
    generateComponentDoc envC2W =
      some ((generateComponentDoc envC2W).getD (assembledDoc envC2W)) ∧
    ((docCallbackEvents envC2W).map EventInfo.name).Nodup ∧
    (((generateComponentDoc envC2W).getD
        (assembledDoc envC2W)).events.filter
      (fun e => e.name = "onTap")).length = 1 ∧
    ((generateComponentDoc envC2W).getD
        (assembledDoc envC2W)).events.filter
      (fun e2 => e2.name = "onTap") =
      [{ name := "onTap", type := "Function",
         parameters := "(event, widget)" }] := by
  have hg : (generateComponentDoc envC2W).getD (assembledDoc envC2W) =
      filterComponentDoc envC2W.config.documentation (assembledDoc envC2W) :=
    rfl
  refine ⟨rfl, csNodupC2, ?_, ?_⟩
  · rw [hg,
      (generateComponentDoc_events_merge envC2W _ rfl csNodupC2).1 "onTap",
      if_pos (Or.inl (by rw [psNamesC2]; exact List.mem_singleton.mpr rfl))]
  · exact (generateComponentDoc_events_merge envC2W _ rfl csNodupC2).2 _
      (by rw [csC2]; exact List.mem_singleton.mpr rfl)
      (by rw [psNamesC2]; exact List.mem_singleton.mpr rfl)

/-! ## Claim C9: own call-site events take precedence over referenced ones -/

/-- One push attempt of the referenced-component loop
(doc-generator.ts 313-322). -/
def cbStep (acc2 : List EventInfo) (e : RawEvent) : List EventInfo :=
  if (acc2.find? (fun existing => existing.name = e.name)).isSome then acc2
  else acc2 ++ [toCallbackEvent e]

theorem cbStep_filter (n : String) (acc : List EventInfo) (e : RawEvent)
    (hmem : n ∈ acc.map EventInfo.name) :
    (cbStep acc e).filter (fun x => x.name = n) =
      acc.filter (fun x => x.name = n) ∧
    n ∈ (cbStep acc e).map EventInfo.name := by
  unfold cbStep
  by_cases hf : ((acc.find? (fun existing => existing.name = e.name)).isSome) = true
  · rw [if_pos hf]
    exact ⟨rfl, hmem⟩
  · rw [if_neg hf]
    have hnone : acc.find? (fun existing => existing.name = e.name) = none :=
      Option.not_isSome_iff_eq_none.mp hf
    have habs : ∀ x ∈ acc, ¬ (x.name = e.name) := by
      intro x hx
      have := List.find?_eq_none.mp hnone x hx
      simpa using this
    have hne : ¬ ((toCallbackEvent e).name = n) := by
      obtain ⟨x, hx, hxn⟩ := List.mem_map.mp hmem
      intro hc
      exact habs x hx (hxn.trans hc.symm)
    constructor
    · rw [List.filter_append, List.filter_cons, if_neg (by simp [hne]),
        List.filter_nil, List.append_nil]
    · rw [List.map_append]
      exact List.mem_append_left _ hmem

theorem innerFold_own (n : String) :
    ∀ (l : List RawEvent) (acc : List EventInfo),
      n ∈ acc.map EventInfo.name →
      ((l.foldl cbStep acc).filter (fun x => x.name = n) =
        acc.filter (fun x => x.name = n) ∧
       n ∈ (l.foldl cbStep acc).map EventInfo.name) := by
  intro l
  induction l with
  | nil => exact fun acc hmem => ⟨rfl, hmem⟩
  | cons e t ih =>
    intro acc hmem
    rw [List.foldl_cons]
    obtain ⟨hstep, hmem'⟩ := cbStep_filter n acc e hmem
    obtain ⟨hrec, hmem''⟩ := ih (cbStep acc e) hmem'
    exact ⟨hrec.trans hstep, hmem''⟩

theorem outerFold_own (n : String) :
    ∀ (refs : List (List RawEvent)) (acc : List EventInfo),
      n ∈ acc.map EventInfo.name →
      (((refs.foldl (fun acc rl => rl.foldl cbStep acc) acc).filter
        (fun x => x.name = n) = acc.filter (fun x => x.name = n)) ∧
       n ∈ (refs.foldl (fun acc rl => rl.foldl cbStep acc)
         acc).map EventInfo.name) := by
  intro refs
  induction refs with
  | nil => exact fun acc hmem => ⟨rfl, hmem⟩
  | cons rl rest ih =>
    intro acc hmem
    rw [List.foldl_cons]
    obtain ⟨hstep, hmem'⟩ := innerFold_own n rl acc hmem
    obtain ⟨hrec, hmem''⟩ := ih (rl.foldl cbStep acc) hmem'
    exact ⟨hrec.trans hstep, hmem''⟩

/-- C9: when an event name was extracted from the component's own
compiled output, the call-site list keeps exactly the own-output
descriptors of that name; every referenced-component descriptor with the
same name is discarded. -/
theorem buildCallbackEvents_own_precedence (own : List RawEvent)
    (refs : List (List RawEvent)) (n : String)
    (hown : n ∈ own.map RawEvent.name) :
    (buildCallbackEvents own refs).filter (fun e => e.name = n) =
      (own.map toCallbackEvent).filter (fun e => e.name = n) := by
  have hb : buildCallbackEvents own refs =
      refs.foldl (fun acc rl => rl.foldl cbStep acc)
        (own.map toCallbackEvent) := rfl
  rw [hb]
  have hcomp : EventInfo.name ∘ toCallbackEvent = RawEvent.name :=
    funext (fun e => rfl)
  have hmem : n ∈ (own.map toCallbackEvent).map EventInfo.name := by
    rw [List.map_map, hcomp]
    exact hown
  exact (outerFold_own n refs _ hmem).1

def ownC9 : List RawEvent := [{ name := "onTap", parameters := "(event)" }]

def refsC9 : List (List RawEvent) :=
  [[{ name := "onTap", parameters := "()" },
    { name := "onFocus", parameters := "()" }]]

/-- Witness for C9: with an own `onTap` and a referenced `onTap`, the
accumulated list keeps only the own descriptor for that name. -/
theorem buildCallbackEvents_own_precedence_witness :
    "onTap" ∈ ownC9.map RawEvent.name ∧
    (buildCallbackEvents ownC9 refsC9).filter (fun e => e.name = "onTap") =
      (ownC9.map toCallbackEvent).filter (fun e => e.name = "onTap") :=
  ⟨by decide, buildCallbackEvents_own_precedence ownC9 refsC9 "onTap"
    (by decide)⟩

/-! ## Claim C4: the default style descriptor -/

/-- Counterexample to C4 as stated: a component without a styles artifact
still produces a document, and its style list is empty — no descriptor
at all carries the synthetic "Default style class" description, so the
list does not contain exactly one such descriptor. -/
theorem generateComponentDoc_styles_counterexample :
    (generateComponentDoc envC6W).map ComponentDoc.styles = some [] := rfl

theorem filtered_doc_styles (env : GenEnv) :
    (filterComponentDoc env.config.documentation (assembledDoc env)).styles =
      (docStyles env).filter
        (styleKept env.config.documentation env.componentName) := rfl

theorem docStyles_eq (env : GenEnv) (si : StyleExtract)
    (hsty : env.sources.styles.bind env.ops.extractStyleClasses = some si) :
    docStyles env =
      { className := si.defaultClass,
        description := some "Default style class" } ::
        (si.styleClasses.filter (fun cls => cls ≠ si.defaultClass)).map
          (fun cls => { className := cls, description := none }) := by
  unfold docStyles
  rw [hsty]

theorem restStyles_mem (si : StyleExtract) (s : StyleInfo)
    (hs : s ∈ (si.styleClasses.filter
      (fun cls => cls ≠ si.defaultClass)).map
      (fun cls => ({ className := cls, description := none } : StyleInfo))) :
    s.description = none ∧ s.className ≠ si.defaultClass := by
  obtain ⟨cls, hcls, rfl⟩ := List.mem_map.mp hs
  have := (List.mem_filter.mp hcls).2
  exact ⟨rfl, by simpa using this⟩

/-- C4 (amended): for every component whose style extraction produced a
result and whose default class is not excluded by the configured style
filters, the final style list's first element is the default descriptor
with the synthetic "Default style class" description, exactly one
element of the list carries that description, and the default class name
occurs in no later entry. -/
theorem generateComponentDoc_styles_default (env : GenEnv)
    (doc : ComponentDoc) (si : StyleExtract)
    (hsty : env.sources.styles.bind env.ops.extractStyleClasses = some si)
    (hkeep : styleKept env.config.documentation env.componentName
      { className := si.defaultClass,
        description := some "Default style class" } = true)
    (hdoc : generateComponentDoc env = some doc) :
    doc.styles.head? =
      some { className := si.defaultClass,
             description := some "Default style class" } ∧
    (doc.styles.filter
      (fun s => s.description = some "Default style class")).length = 1 ∧
    (∀ s ∈ doc.styles.tail, s.className ≠ si.defaultClass) := by
  have hde := generateComponentDoc_inv env doc hdoc
  subst hde
  rw [filtered_doc_styles, docStyles_eq env si hsty]
  rw [List.filter_cons, if_pos hkeep]
  have hrest : ∀ s ∈ ((si.styleClasses.filter
      (fun cls => cls ≠ si.defaultClass)).map
      (fun cls => ({ className := cls, description := none } : StyleInfo))).filter
      (styleKept env.config.documentation env.componentName),
      s.description = none ∧ s.className ≠ si.defaultClass :=
    fun s hs => restStyles_mem si s (List.mem_of_mem_filter hs)
  refine ⟨rfl, ?_, ?_⟩
  · rw [List.filter_cons,
      if_pos (decide_eq_true
        (rfl : (some "Default style class" : Option String) =
          some "Default style class"))]
    have hnil : List.filter
        (fun s => s.description = some "Default style class")
        (List.filter (styleKept env.config.documentation env.componentName)
          ((si.styleClasses.filter (fun cls => cls ≠ si.defaultClass)).map
            (fun cls => ({ className := cls, description := none } :
              StyleInfo)))) = [] := by
      rw [List.filter_eq_nil_iff]
      intro s hs
      have hd := (hrest s hs).1
      simp [hd]
    rw [hnil]
    rfl
  · intro s hs
    exact (hrest s hs).2

/-! Concrete witness data for C4: an `anchor` component with a default
class `app-anchor` that is also registered explicitly. -/

def opsC4W : TypeScriptParserOps where
  extractProps := fun _ => none
  extractMethods := fun _ => none
  extractStyleClasses := fun s =>
    if s = "SRC_ANCHOR_STYLES" then
      some { defaultClass := "app-anchor",
             styleClasses := ["app-anchor", "app-anchor-rtl",
                              "link-primary"] }
    else none
  extractEventCallbacks := fun _ => []
  isCallableType := fun _ => false

def envC4W : GenEnv :=
  { ops := opsC4W, lib := libC6, fuel := 4, componentName := "anchor",
    componentPath := "components/basic/anchor", category := "basic",
    sources := { props := none, component := some "SRC_ANCHOR_COMP",
                 styles := some "SRC_ANCHOR_STYLES" },
    jsFile := none, refFiles := [], childDocs := [], config := cfgW }

def siC4W : StyleExtract :=
  { defaultClass := "app-anchor",
    styleClasses := ["app-anchor", "app-anchor-rtl", "link-primary"] }

/-- Witness for C4 (amended): the anchor document's style list starts
with the default `app-anchor` descriptor, contains exactly one
descriptor with the synthetic description, and `app-anchor` never
recurs. -/
theorem generateComponentDoc_styles_default_witness :
    envC4W.sources.styles.bind envC4W.ops.extractStyleClasses =
      some siC4W ∧
    styleKept envC4W.config.documentation envC4W.componentName
      { className := siC4W.defaultClass,
        description := some "Default style class" } = true ∧
    ((generateComponentDoc envC4W).getD (assembledDoc envC4W)).styles.head? =
      some { className := siC4W.defaultClass,
             description := some "Default style class" } ∧
    (((generateComponentDoc envC4W).getD
        (assembledDoc envC4W)).styles.filter
      (fun s => s.description = some "Default style class")).length = 1 ∧
    (∀ s ∈ ((generateComponentDoc envC4W).getD
        (assembledDoc envC4W)).styles.tail,
      s.className ≠ siC4W.defaultClass) := by
  obtain ⟨h1, h2, h3⟩ :=
    generateComponentDoc_styles_default envC4W _ siC4W rfl rfl rfl
  exact ⟨rfl, rfl, h1, h2, h3⟩

/-! ## Claim C5: alias documents -/

/-- `generateDocForAlias` (doc-generator.ts 526-539): generate the source
component's document, then return it with the alias name, the source
path, and an explanatory description
(`{...sourceDoc, componentName: aliasName, componentPath:
sourceComponentPath, description: Alias of ...}`). -/
def generateDocForAlias (env : GenEnv) (aliasName : String) :
    Option ComponentDoc :=
  match generateComponentDoc env with
  | none => none
  | some sourceDoc =>
    match sourceDoc with
    | .mk n _ cat props methods events styles base children _ =>
      some (.mk aliasName env.componentPath cat props methods events styles
        base children (some ("Alias of " ++ n)))

/-- C5: for an alias pair whose alias name differs from the source
component's name, the alias document exists whenever the source document
does, carries the source's `props`, `methods`, `events` and `styles`
verbatim, has the alias as its component name (hence a name different
from the source's), and a present explanatory description. -/
theorem generateDocForAlias_spec (env : GenEnv) (aliasName : String)
    (sourceDoc : ComponentDoc)
    (hsrc : generateComponentDoc env = some sourceDoc)
    (hne : aliasName ≠ env.componentName) :
    ∃ aliasDoc, generateDocForAlias env aliasName = some aliasDoc ∧
      aliasDoc.props = sourceDoc.props ∧
      aliasDoc.methods = sourceDoc.methods ∧
      aliasDoc.events = sourceDoc.events ∧
      aliasDoc.styles = sourceDoc.styles ∧
      aliasDoc.componentName = aliasName ∧
      aliasDoc.componentName ≠ sourceDoc.componentName ∧
      aliasDoc.description.isSome = true := by
  have hname : sourceDoc.componentName = env.componentName := by
    rw [generateComponentDoc_inv env sourceDoc hsrc]
    rfl
  cases sourceDoc with
  | mk n p cat props methods events styles base children desc =>
    have hn : n = env.componentName := hname
    refine ⟨.mk aliasName env.componentPath cat props methods events styles
      base children (some ("Alias of " ++ n)), ?_, rfl, rfl, rfl, rfl, rfl,
      ?_, rfl⟩
    · unfold generateDocForAlias
      rw [hsrc]
    · intro hc
      exact hne ((hc : aliasName = n).trans hn)

/-- Witness for C5: the alias `buttonAlias` of the concrete `button`
environment. -/
theorem generateDocForAlias_spec_witness :
    generateComponentDoc envW =
      some ((generateComponentDoc envW).getD (assembledDoc envW)) ∧
    "buttonAlias" ≠ envW.componentName ∧
    (∃ aliasDoc, generateDocForAlias envW "buttonAlias" = some aliasDoc ∧
      aliasDoc.props =
        ((generateComponentDoc envW).getD (assembledDoc envW)).props ∧
      aliasDoc.methods =
        ((generateComponentDoc envW).getD (assembledDoc envW)).methods ∧
      aliasDoc.events =
        ((generateComponentDoc envW).getD (assembledDoc envW)).events ∧
      aliasDoc.styles =
        ((generateComponentDoc envW).getD (assembledDoc envW)).styles ∧
      aliasDoc.componentName = "buttonAlias" ∧
      aliasDoc.componentName ≠
        ((generateComponentDoc envW).getD (assembledDoc envW)).componentName ∧
      aliasDoc.description.isSome = true) :=
  ⟨rfl, by decide,
    generateDocForAlias_spec envW "buttonAlias" _ rfl (by decide)⟩

/-! ## Claim C10: the constructor's shallow configuration merge -/

/-- `Partial<GeneratorConfig>`: each top-level key optionally present. -/
structure PartialGeneratorConfig where
  includeComponents : Option (List String) := none
  childComponents : Option (List (String × List (String × String))) := none
  componentAliases : Option (List (String × String)) := none
  excludeCategories : Option (List String) := none
  excludeComponents : Option (List String) := none
  documentation : Option DocumentationConfig := none
  llm : Option LlmConfig := none
deriving Repr, DecidableEq

/-- JavaScript `parseInt` as used in `config.ts` (decimal input): skip
leading whitespace and an optional sign, read the maximal run of leading
decimal digits, ignore any trailing text; `none` models `NaN`. -/
def parseIntJs (s : String) : Option Int :=
  let trimmed := s.data.dropWhile (fun c => c.isWhitespace)
  let signRest : Int × List Char :=
    match trimmed with
    | '-' :: r => (-1, r)
    | '+' :: r => (1, r)
    | r => (1, r)
  let digits := signRest.2.takeWhile (fun c => c.isDigit)
  if digits.isEmpty then none
  else
    some (signRest.1 *
      (digits.foldl (fun acc c => acc * 10 + (c.toNat - '0'.toNat)) 0 : Nat))

/-- `DEFAULT_CONFIG` (config.ts 111-304).  `processEnv` models
`process.env`: `none` stands for an absent (or empty, hence falsy)
variable, so `process.env.X || "d"` becomes `(processEnv "X").getD "d"`. -/
def DEFAULT_CONFIG (processEnv : String → Option String) : GeneratorConfig :=
  { includeComponents :=
      ["accordion", "alertdialog", "anchor", "area-chart", "bar-chart",
       "barcodescanner", "bottomsheet", "bubble-chart", "button",
       "buttongroup", "calendar", "camera", "card", "carousel", "checkbox",
       "checkboxset", "chips", "column-chart", "confirmdialog", "container",
       "currency", "date", "datetime", "dialog", "donut-chart", "fileupload",
       "form", "icon", "label", "layoutgrid", "line-chart", "linearlayout",
       "list", "liveform", "login", "lottie", "menu", "message", "navbar",
       "number", "panel", "picture", "pie-chart", "popover", "progress-bar",
       "progress-circle", "radioset", "rating", "search", "select",
       "selectlocale", "slider", "spinner", "switch", "tabs", "text",
       "textarea", "tile", "time", "toggle", "tooltip", "video", "webview",
       "wizard"],
    childComponents :=
      [("accordion", [("accordionpane", "./accordionpane")]),
       ("layoutgrid", [("gridrow", "./gridrow"),
                       ("gridcolumn", "./gridcolumn")]),
       ("linearlayout", [("linearlayoutitem", "./linearlayoutitem")]),
       ("panel", [("panel-content", "./panel-content"),
                  ("panel-footer", "./panel-footer")]),
       ("tabs", [("tabpane", "./tabpane"), ("tabheader", "./tabheader")]),
       ("wizard", [("wizardstep", "./wizardstep")]),
       ("card", [("card-content", "./card-content"),
                 ("card-footer", "./card-footer")]),
       ("list", [("list-template", "./list-template"),
                 ("list-action-template", "./list-action-template")]),
       ("form", [("form-body", "./form-body"), ("form-field", "./form-field"),
                 ("form-action", "./form-action"),
                 ("form-footer", "./form-footer")]),
       ("carousel", [("carousel-content", "./carousel-content"),
                     ("carousel-template", "./carousel-template")]),
       ("dialog", [("dialogcontent", "../dialogcontent"),
                   ("dialogactions", "../dialogactions")]),
       ("alertdialog", [("dialogcontent", "../dialogcontent"),
                        ("dialogactions", "../dialogactions")]),
       ("confirmdialog", [("dialogcontent", "../dialogcontent"),
                          ("dialogactions", "../dialogactions")])],
    componentAliases := [("selectlocale", "select")],
    excludeCategories :=
      ["node_modules", ".git", "dist", "coverage", "prefabs", "page"],
    excludeComponents := [],
    documentation :=
      { excludeProps := ["children", "renderItem"],
        excludeInheritedProps :=
          ["listener", "showskeletonchildren", "deferload", "isdefault",
           "key", "id", "name", "children", "renderItem"],
        excludeMethods :=
          ["renderWidget", "renderSkeleton", "prepareIcon", "prepareBadge",
           "updateState", "componentDidMount", "componentWillUnmount",
           "componentDidUpdate"],
        excludeStyleClasses := [],
        componentOverrides := [] },
    llm :=
      { provider := (processEnv "AI_PROVIDER").getD "claude",
        model := some ((processEnv "AI_MODEL").getD "claude-sonnet-4-0"),
        storybookPath :=
          (processEnv "STORYBOOK_PATH").getD "../rn-widgets-storybook",
        batchSize := parseIntJs ((processEnv "BATCH_SIZE").getD "10") } }

/-- The object spread `{...DEFAULT_CONFIG, ...config}`: each top-level
key present in the partial configuration replaces the corresponding
default value wholesale. -/
def mergeConfig (deflt : GeneratorConfig) (config : PartialGeneratorConfig) :
    GeneratorConfig :=
  { includeComponents := config.includeComponents.getD deflt.includeComponents,
    childComponents := config.childComponents.getD deflt.childComponents,
    componentAliases := config.componentAliases.getD deflt.componentAliases,
    excludeCategories := config.excludeCategories.getD deflt.excludeCategories,
    excludeComponents := config.excludeComponents.getD deflt.excludeComponents,
    documentation := config.documentation.getD deflt.documentation,
    llm := config.llm.getD deflt.llm }

/-- The `DocumentationGenerator` constructor's configuration assignment
(`this.config = { ...DEFAULT_CONFIG, ...config }`,
doc-generator.ts 17-20). -/
def constructorConfig (processEnv : String → Option String)
    (config : PartialGeneratorConfig) : GeneratorConfig :=
  mergeConfig (DEFAULT_CONFIG processEnv) config

/-- C10: the constructor merges the partial configuration shallowly over
the defaults — for every top-level key present in the partial
configuration (for example the nested `documentation` object), the
resulting configuration's value of that key equals the supplied value in
its entirety, so none of the default's nested fields of that key are
retained. -/
theorem constructorConfig_shallow_merge
    (processEnv : String → Option String) (p : PartialGeneratorConfig) :
    (∀ v, p.includeComponents = some v →
      (constructorConfig processEnv p).includeComponents = v) ∧
    (∀ v, p.childComponents = some v →
      (constructorConfig processEnv p).childComponents = v) ∧
    (∀ v, p.componentAliases = some v →
      (constructorConfig processEnv p).componentAliases = v) ∧
    (∀ v, p.excludeCategories = some v →
      (constructorConfig processEnv p).excludeCategories = v) ∧
    (∀ v, p.excludeComponents = some v →
      (constructorConfig processEnv p).excludeComponents = v) ∧
    (∀ v, p.documentation = some v →
      (constructorConfig processEnv p).documentation = v) ∧
    (∀ v, p.llm = some v →
      (constructorConfig processEnv p).llm = v) := by
  refine ⟨?_, ?_, ?_, ?_, ?_, ?_, ?_⟩ <;>
    · intro v hv
      unfold constructorConfig mergeConfig
      rw [hv]
      rfl

def noEnv : String → Option String := fun _ => none

def partialCfgW : PartialGeneratorConfig :=
  { documentation := some docCfgEmpty }

/-- Witness for C10: supplying a `documentation` object with empty
exclusion lists replaces the entire default documentation section — the
default inherited-prop exclusions are not retained. -/
theorem constructorConfig_shallow_merge_witness :
    partialCfgW.documentation = some docCfgEmpty ∧
    (constructorConfig noEnv partialCfgW).documentation = docCfgEmpty ∧
    (constructorConfig noEnv partialCfgW).documentation.excludeInheritedProps ≠
      (DEFAULT_CONFIG noEnv).documentation.excludeInheritedProps :=
  ⟨rfl,
    (constructorConfig_shallow_merge noEnv partialCfgW).2.2.2.2.2.1
      docCfgEmpty rfl,
    by decide⟩
